import Mathlib

/-!
Verification of the dealership service-orchestration system.

The repository ships the React frontend (`DiagnosisChat`, `EstimatesComparison`,
`DealerServiceDetail`, …) and the catalog documentation (`tables.md`); the
backend (Dealership Estimator, Rule Engine, Booking Coordinator,
`UpdateServiceRequest` validation, Estimate Aggregator) is described by the
specification but its source is not in the repository.  Frontend logic is
embedded directly from the JavaScript; the missing backend operations are
modelled from the specification, and each such definition says so in its
doc comment.
-/

namespace AutoCare

/-! ## Catalog data model (from `tables.md` schemas) -/

/-- A parts-catalog record, from the `parts_model` schema in `tables.md`. -/
structure Part where
  part_id : String
  part_name : String
  vehicle_models : List String
  cost : ℚ
  in_stock : Bool
  eta_if_not_available_days : ℕ
  warranty_applicable : Bool
  insurance_applicable : Bool
deriving DecidableEq, Repr

/-- A service-problem record, from the `service_problems` schema in `tables.md`. -/
structure ServiceProblem where
  problem_id : String
  problem_name : String
  detailed_description : List String
  parts_needed : List String
  labour_category : String
  estimated_labour_hours : ℚ
  estimated_service_time_minutes : ℕ
deriving DecidableEq, Repr

/-- A labour record, from the `labour` schema in `tables.md`. -/
structure LabourRecord where
  labour_category : String
  technician_id : String
  skill_level : String
  hourly_rate : ℚ
  availability : Bool
  eta_if_unavailable_hours : ℕ
deriving DecidableEq, Repr

/-- Coverage type of a discount rule, from the `insurance_warranty_rules`
schema in `tables.md`. -/
inductive CoverageType where
  | WARRANTY
  | INSURANCE
deriving DecidableEq, Repr

/-- A discount rule, from the `insurance_warranty_rules` schema in `tables.md`. -/
structure DiscountRule where
  rule_id : String
  coverage_type : CoverageType
  part_id : String
  max_vehicle_age_months : ℕ
  discount_percentage : ℚ
deriving DecidableEq, Repr

/-! ## Rule Engine (modelled from the spec, §4.4) -/

/-- Modelled from the spec: the applicability-flag check of the Rule Engine
(the backend rules engine is not in the repository source).  A rule's
discount applies only if the part's `warranty_applicable` (for `WARRANTY`
rules) or `insurance_applicable` (for `INSURANCE` rules) flag is true. -/
def flagOk (part : Part) : CoverageType → Bool
  | .WARRANTY => part.warranty_applicable
  | .INSURANCE => part.insurance_applicable

/-- Modelled from the spec: the Rule Engine's matching set — all rules whose
`part_id` matches and whose `max_vehicle_age_months >= vehicle_age`. -/
def matchingRules (part : Part) (vehicle_age : ℕ) (rules : List DiscountRule) :
    List DiscountRule :=
  rules.filter fun r =>
    r.part_id == part.part_id && decide (vehicle_age ≤ r.max_vehicle_age_months)

/-- Modelled from the spec: the Rule Engine's preference between two rules —
highest `discount_percentage` wins; if tied, lowest `rule_id` wins. -/
def pickBetter (a b : DiscountRule) : DiscountRule :=
  if a.discount_percentage < b.discount_percentage then b
  else if b.discount_percentage < a.discount_percentage then a
  else if a.rule_id ≤ b.rule_id then a else b

/-- Modelled from the spec: select, among the matching rules, the rule with the
highest `discount_percentage`, ties broken by lowest `rule_id`. -/
def selectRule : List DiscountRule → Option DiscountRule
  | [] => none
  | r :: rs => some (rs.foldl pickBetter r)

/-- Outcome of one Rule Engine invocation: the discount amount, and the id of
the applied rule (for auditability), if any rule applied. -/
structure RuleOutcome where
  discount : ℚ
  applied_rule : Option String
deriving DecidableEq, Repr

/-- Modelled from the spec: the Rule Engine (§4.4).  Pure function of a part,
a vehicle age in months, and the rule catalog: select all rules whose
`part_id` matches and whose `max_vehicle_age_months >= vehicle_age`; apply
the one with the highest `discount_percentage` (ties: lowest `rule_id`);
discount amount is `part.cost × discount_percentage / 100`, applied only if
the part's applicability flag for the rule's coverage type is true —
otherwise no rule applies. -/
def ruleEngine (part : Part) (vehicle_age : ℕ) (rules : List DiscountRule) :
    RuleOutcome :=
  match selectRule (matchingRules part vehicle_age rules) with
  | none => ⟨0, none⟩
  | some r =>
      if flagOk part r.coverage_type then
        ⟨part.cost * r.discount_percentage / 100, some r.rule_id⟩
      else ⟨0, none⟩

/-- Preference relation `Beats a b`: rule `a` is preferred to (or as good as) rule `b` under the
Rule Engine's ordering — strictly higher percentage, or equal percentage and
`rule_id` no larger. -/
def Beats (a b : DiscountRule) : Prop :=
  b.discount_percentage < a.discount_percentage ∨
    (b.discount_percentage = a.discount_percentage ∧ a.rule_id ≤ b.rule_id)

theorem Beats.refl (a : DiscountRule) : Beats a a :=
  Or.inr ⟨rfl, le_refl _⟩

theorem Beats.trans {a b c : DiscountRule} (h₁ : Beats a b) (h₂ : Beats b c) :
    Beats a c := by
  rcases h₁ with h₁ | ⟨h₁e, h₁i⟩ <;> rcases h₂ with h₂ | ⟨h₂e, h₂i⟩
  · exact Or.inl (h₂.trans h₁)
  · exact Or.inl (h₂e ▸ h₁)
  · exact Or.inl (h₁e ▸ h₂)
  · exact Or.inr ⟨h₂e.trans h₁e, h₁i.trans h₂i⟩

theorem pickBetter_eq_or (a b : DiscountRule) :
    pickBetter a b = a ∨ pickBetter a b = b := by
  unfold pickBetter
  split_ifs <;> simp

theorem pickBetter_beats_left (a b : DiscountRule) : Beats (pickBetter a b) a := by
  unfold pickBetter
  split_ifs with h₁ h₂ h₃
  · exact Or.inl h₁
  · exact Beats.refl a
  · exact Beats.refl a
  · exact Or.inr ⟨le_antisymm (le_of_not_lt h₂) (le_of_not_lt h₁), le_of_not_le h₃⟩

theorem pickBetter_beats_right (a b : DiscountRule) : Beats (pickBetter a b) b := by
  unfold pickBetter
  split_ifs with h₁ h₂ h₃
  · exact Beats.refl b
  · exact Or.inl h₂
  · exact Or.inr ⟨le_antisymm (le_of_not_lt h₁) (le_of_not_lt h₂), h₃⟩
  · exact Beats.refl b

theorem foldl_pickBetter_mem (l : List DiscountRule) (a : DiscountRule) :
    l.foldl pickBetter a = a ∨ l.foldl pickBetter a ∈ l := by
  induction l generalizing a with
  | nil => exact Or.inl rfl
  | cons b t ih =>
      rcases ih (pickBetter a b) with h | h
      · rcases pickBetter_eq_or a b with hp | hp
        · exact Or.inl (by rw [List.foldl_cons, h, hp])
        · exact Or.inr (by rw [List.foldl_cons, h, hp]; exact List.mem_cons_self _ _)
      · exact Or.inr (List.mem_cons_of_mem _ (by rw [List.foldl_cons]; exact h))

theorem foldl_pickBetter_beats (l : List DiscountRule) (a : DiscountRule) :
    Beats (l.foldl pickBetter a) a ∧ ∀ s ∈ l, Beats (l.foldl pickBetter a) s := by
  induction l generalizing a with
  | nil => exact ⟨Beats.refl a, by simp⟩
  | cons b t ih =>
      obtain ⟨h₁, h₂⟩ := ih (pickBetter a b)
      refine ⟨?_, ?_⟩
      · exact (by rw [List.foldl_cons]; exact h₁.trans (pickBetter_beats_left a b))
      · intro s hs
        rcases List.mem_cons.mp hs with rfl | hs
        · exact (by rw [List.foldl_cons]; exact h₁.trans (pickBetter_beats_right a s))
        · exact (by rw [List.foldl_cons]; exact h₂ s hs)

theorem selectRule_mem {l : List DiscountRule} {r : DiscountRule}
    (h : selectRule l = some r) : r ∈ l := by
  cases l with
  | nil => simp [selectRule] at h
  | cons b t =>
      simp only [selectRule, Option.some.injEq] at h
      subst h
      rcases foldl_pickBetter_mem t b with hm | hm
      · rw [hm]; exact List.mem_cons_self _ _
      · exact List.mem_cons_of_mem _ hm

theorem selectRule_beats {l : List DiscountRule} {r : DiscountRule}
    (h : selectRule l = some r) : ∀ s ∈ l, Beats r s := by
  cases l with
  | nil => simp [selectRule] at h
  | cons b t =>
      simp only [selectRule, Option.some.injEq] at h
      subst h
      intro s hs
      obtain ⟨h₁, h₂⟩ := foldl_pickBetter_beats t b
      rcases List.mem_cons.mp hs with rfl | hs
      · exact h₁
      · exact h₂ s hs

theorem mem_matchingRules {part : Part} {age : ℕ} {rules : List DiscountRule}
    {r : DiscountRule} :
    r ∈ matchingRules part age rules ↔
      r ∈ rules ∧ r.part_id = part.part_id ∧ age ≤ r.max_vehicle_age_months := by
  simp [matchingRules, List.mem_filter, and_assoc]

/-! ## Dealership Estimator (modelled from the spec, §4.3) -/

/-- Modelled from the spec: labour resolution in the Dealership Estimator —
select a `LabourRecord` whose category matches the problem's
`labour_category`, preferring an available technician. -/
def selectLabour (ls : List LabourRecord) (cat : String) : Option LabourRecord :=
  let catMatches := ls.filter fun l => l.labour_category == cat
  match catMatches.find? (fun l => l.availability) with
  | some l => some l
  | none => catMatches.head?

/-- One estimate for a (dealership, problem) pair, from the spec's data
model (§3). -/
structure Estimate where
  parts_cost : ℚ
  labour_cost : ℚ
  discount_amount : ℚ
  final_cost : ℚ
  estimated_minutes : ℕ
  parts_available : Bool
deriving DecidableEq, Repr

/-- Modelled from the spec: the Dealership Estimator (§4.3), whose backend
source is not in the repository.  Parts cost is the sum of the required
parts' catalog costs; labour cost is `estimated_labour_hours × hourly_rate`
of the selected labour record (0 when no category match); the Rule Engine
runs per required part and the discounts are summed;
`final_cost = max(0, parts_cost + labour_cost − discount)`. -/
def dealershipEstimate (parts : List Part) (ls : List LabourRecord)
    (pb : ServiceProblem) (vehicle_age : ℕ) (rules : List DiscountRule) :
    Estimate :=
  let pc := (parts.map Part.cost).sum
  let lc :=
    match selectLabour ls pb.labour_category with
    | some l => pb.estimated_labour_hours * l.hourly_rate
    | none => 0
  let d := (parts.map fun p => (ruleEngine p vehicle_age rules).discount).sum
  { parts_cost := pc
    labour_cost := lc
    discount_amount := d
    final_cost := max 0 (pc + lc - d)
    estimated_minutes := pb.estimated_service_time_minutes
    parts_available := parts.all Part.in_stock }

/-! ## Concrete catalog records (the sample records of `tables.md`) -/

/-- The sample part of `tables.md` (`parts_model` schema): `PART_028`,
cost 450, warranty applicable, insurance not applicable. -/
def PART_028 : Part :=
  { part_id := "PART_028"
    part_name := "Engine Oil Filter"
    vehicle_models := ["Hyundai i20", "Hyundai i10"]
    cost := 450
    in_stock := true
    eta_if_not_available_days := 2
    warranty_applicable := true
    insurance_applicable := false }

/-- The sample problem of `tables.md` (`service_problems` schema): `SP001`
"Brake Pad Wear", requiring `PART_028`, General Maintenance labour at
0.8 hours (written `4/5`), 48 minutes. -/
def SP001 : ServiceProblem :=
  { problem_id := "SP001"
    problem_name := "Brake Pad Wear"
    detailed_description :=
      ["Squeaking noise while braking", "Reduced braking efficiency",
       "Brake warning light"]
    parts_needed := ["PART_028"]
    labour_category := "General Maintenance"
    estimated_labour_hours := 4 / 5
    estimated_service_time_minutes := 48 }

/-- The sample labour record of `tables.md` (`labour` schema): technician
`T104`, General Maintenance, rate 750/hr, available. -/
def T104 : LabourRecord :=
  { labour_category := "General Maintenance"
    technician_id := "T104"
    skill_level := "Senior"
    hourly_rate := 750
    availability := true
    eta_if_unavailable_hours := 4 }

/-- The sample rule of `tables.md` (`insurance_warranty_rules` schema):
`RULE_087`, `WARRANTY` coverage of `PART_028`, 100% discount for vehicles
at most 24 months old. -/
def RULE_087 : DiscountRule :=
  { rule_id := "RULE_087"
    coverage_type := .WARRANTY
    part_id := "PART_028"
    max_vehicle_age_months := 24
    discount_percentage := 100 }

/-- Each part's Rule Engine discount is bounded by that part's cost, for any
rule catalog whose percentages lie in [0,100]. -/
theorem ruleEngine_discount_le_cost {part : Part} {age : ℕ}
    {rules : List DiscountRule}
    (hpct : ∀ r ∈ rules, 0 ≤ r.discount_percentage ∧ r.discount_percentage ≤ 100)
    (hc : 0 ≤ part.cost) :
    (ruleEngine part age rules).discount ≤ part.cost := by
  unfold ruleEngine
  cases h : selectRule (matchingRules part age rules) with
  | none => simpa using hc
  | some r =>
      have hr : r ∈ rules :=
        (mem_matchingRules.mp (selectRule_mem h)).1
      obtain ⟨hp0, hp100⟩ := hpct r hr
      by_cases hf : flagOk part r.coverage_type = true
      · simp only [hf, if_true]
        rw [mul_div_assoc]
        have h1 : r.discount_percentage / 100 ≤ 1 :=
          (div_le_one (by norm_num)).mpr hp100
        exact mul_le_of_le_one_right hc h1
      · simp only [hf, if_false]
        simpa using hc

/-! ## Claim theorems: C1–C3 -/

/-- C1: for every parts catalog, every rule catalog whose discount
percentages lie in [0,100], and every (dealership, problem) pair, the final
cost produced by the Dealership Estimator equals
`max(0, parts_cost + labour_cost − discount)` and is therefore never
negative; moreover no single part's discount exceeds that part's cost. -/
theorem estimator_final_cost_spec
    (parts : List Part) (ls : List LabourRecord) (pb : ServiceProblem)
    (age : ℕ) (rules : List DiscountRule)
    (hpct : ∀ r ∈ rules, 0 ≤ r.discount_percentage ∧ r.discount_percentage ≤ 100)
    (hcost : ∀ p ∈ parts, 0 ≤ p.cost) :
    (dealershipEstimate parts ls pb age rules).final_cost =
      max 0 ((dealershipEstimate parts ls pb age rules).parts_cost +
        (dealershipEstimate parts ls pb age rules).labour_cost -
        (dealershipEstimate parts ls pb age rules).discount_amount) ∧
    0 ≤ (dealershipEstimate parts ls pb age rules).final_cost ∧
    ∀ p ∈ parts, (ruleEngine p age rules).discount ≤ p.cost := by
  refine ⟨rfl, le_max_left _ _, ?_⟩
  intro p hp
  exact ruleEngine_discount_le_cost hpct (hcost p hp)

/-- Witness for C1 at the concrete `tables.md` records. -/
theorem estimator_final_cost_spec_witness :
    0 ≤ (dealershipEstimate [PART_028] [T104] SP001 12 [RULE_087]).final_cost :=
  (estimator_final_cost_spec [PART_028] [T104] SP001 12 [RULE_087]
    (by intro r hr; simp only [List.mem_singleton] at hr; subst hr
        constructor <;> norm_num [RULE_087])
    (by intro p hp; simp only [List.mem_singleton] at hp; subst hp
        norm_num [PART_028])).2.1

/-- C2: the Rule Engine applies, among the rules matching the part id and the
vehicle-age ceiling, the one with the highest `discount_percentage` (ties:
lowest `rule_id`); the discount is `part.cost × discount_percentage / 100`
and is only granted when the part's applicability flag for the rule's
coverage type holds (otherwise no rule applies and the discount is 0);
identical inputs always produce identical discount and winning rule id. -/
theorem ruleEngine_spec (part : Part) (age : ℕ) (rules : List DiscountRule) :
    (∀ rid, (ruleEngine part age rules).applied_rule = some rid →
      ∃ r ∈ rules, r.rule_id = rid ∧ r.part_id = part.part_id ∧
        age ≤ r.max_vehicle_age_months ∧ flagOk part r.coverage_type = true ∧
        (ruleEngine part age rules).discount =
          part.cost * r.discount_percentage / 100 ∧
        ∀ s ∈ rules, s.part_id = part.part_id →
          age ≤ s.max_vehicle_age_months →
          s.discount_percentage < r.discount_percentage ∨
            (s.discount_percentage = r.discount_percentage ∧
              r.rule_id ≤ s.rule_id)) ∧
    ((ruleEngine part age rules).applied_rule = none →
      (ruleEngine part age rules).discount = 0) ∧
    (∀ o₁ o₂ : RuleOutcome, ruleEngine part age rules = o₁ →
      ruleEngine part age rules = o₂ → o₁ = o₂) := by
  refine ⟨?_, ?_, fun o₁ o₂ h₁ h₂ => h₁ ▸ h₂ ▸ rfl⟩
  · intro rid hrid
    unfold ruleEngine at hrid ⊢
    cases h : selectRule (matchingRules part age rules) with
    | none => rw [h] at hrid; simp at hrid
    | some r =>
        rw [h] at hrid
        by_cases hf : flagOk part r.coverage_type = true
        · simp only [hf, if_true] at hrid ⊢
          obtain ⟨hmem, hpid, hage⟩ := mem_matchingRules.mp (selectRule_mem h)
          refine ⟨r, hmem, by simpa using hrid, hpid, hage, hf, rfl, ?_⟩
          intro s hs hspid hsage
          exact selectRule_beats h s (mem_matchingRules.mpr ⟨hs, hspid, hsage⟩)
        · simp only [hf, if_false] at hrid
          simp at hrid
  · intro hnone
    unfold ruleEngine at hnone ⊢
    cases h : selectRule (matchingRules part age rules) with
    | none => rfl
    | some r =>
        rw [h] at hnone
        by_cases hf : flagOk part r.coverage_type = true
        · simp only [hf, if_true] at hnone; simp at hnone
        · simp [hf]

/-- Witness for C2 at the concrete `tables.md` records: `RULE_087` is the
winning rule for `PART_028` at vehicle age 12. -/
theorem ruleEngine_spec_witness :
    ∃ r ∈ [RULE_087], r.rule_id = "RULE_087" ∧ r.part_id = PART_028.part_id ∧
      12 ≤ r.max_vehicle_age_months ∧ flagOk PART_028 r.coverage_type = true ∧
      (ruleEngine PART_028 12 [RULE_087]).discount =
        PART_028.cost * r.discount_percentage / 100 ∧
      ∀ s ∈ [RULE_087], s.part_id = PART_028.part_id →
        12 ≤ s.max_vehicle_age_months →
        s.discount_percentage < r.discount_percentage ∨
          (s.discount_percentage = r.discount_percentage ∧
            r.rule_id ≤ s.rule_id) :=
  (ruleEngine_spec PART_028 12 [RULE_087]).1 "RULE_087"
    (by norm_num [ruleEngine, matchingRules, selectRule, flagOk,
          PART_028, RULE_087])

/-- C3: for the `SP001` scenario of `tables.md` (`PART_028` at cost 450,
General Maintenance labour at 0.8 h × 750/hr, `RULE_087` giving a 100%
`WARRANTY` discount up to 24 months), the estimator returns
`parts_cost = 450`, `labour_cost = 600`, `discount = 450`, `final_cost = 600`
at vehicle age 12, and `discount = 0`, `final_cost = 1050` at age 30. -/
theorem sp001_scenario :
    (dealershipEstimate [PART_028] [T104] SP001 12 [RULE_087]).parts_cost = 450 ∧
    (dealershipEstimate [PART_028] [T104] SP001 12 [RULE_087]).labour_cost = 600 ∧
    (dealershipEstimate [PART_028] [T104] SP001 12 [RULE_087]).discount_amount = 450 ∧
    (dealershipEstimate [PART_028] [T104] SP001 12 [RULE_087]).final_cost = 600 ∧
    (dealershipEstimate [PART_028] [T104] SP001 30 [RULE_087]).discount_amount = 0 ∧
    (dealershipEstimate [PART_028] [T104] SP001 30 [RULE_087]).final_cost = 1050 := by
  refine ⟨?_, ?_, ?_, ?_, ?_, ?_⟩ <;>
    norm_num [dealershipEstimate, selectLabour, ruleEngine, matchingRules,
      selectRule, pickBetter, flagOk, PART_028, T104, SP001, RULE_087]

/-! ## ServiceRequest, status machine and dealership update
(modelled from the spec, §3/§4.6/§6; the status options themselves appear in
`DealerServiceDetail`) -/

/-- Booking status, the four options of the `DealerServiceDetail` status
select: `Requested`, `Approved`, `In Progress`, `Completed`. -/
inductive Status where
  | Requested
  | Approved
  | InProgress
  | Completed
deriving DecidableEq, Repr

/-- Position of a status in the linear order
`Requested → Approved → In Progress → Completed`. -/
def Status.idx : Status → ℕ
  | .Requested => 0
  | .Approved => 1
  | .InProgress => 2
  | .Completed => 3

/-- A booking record, from the spec's data model (§3): candidate problems at
booking time, nullable selected problem, status, nullable final cost/time. -/
structure ServiceRequest where
  request_id : String
  customer_id : String
  vehicle_id : String
  dealership_id : String
  top_problems : List String
  selected_problem : Option String
  status : Status
  final_cost : Option ℚ
  final_time_minutes : Option ℕ
deriving DecidableEq, Repr

/-- Error taxonomy entries relevant to the dealership update (spec §7). -/
inductive UpdateError where
  | InvalidTransition
deriving DecidableEq, Repr

/-- Modelled from the spec: the backend `UpdateServiceRequest` operation
(§6, §4.6) is not in the repository source.  It applies the dealership's
update only when the status change follows the linear order
`Requested → Approved → In Progress → Completed` without moving backward;
otherwise it rejects with `InvalidTransition` and the stored request is
unchanged. -/
def updateServiceRequest (req : ServiceRequest) (newStatus : Status)
    (selectedId : Option String) (fc : Option ℚ) (ftm : Option ℕ) :
    Except UpdateError ServiceRequest :=
  if req.status.idx ≤ newStatus.idx then
    .ok { req with
      status := newStatus
      selected_problem := selectedId.orElse fun _ => req.selected_problem
      final_cost := fc
      final_time_minutes := ftm }
  else .error .InvalidTransition

/-- C4: `UpdateServiceRequest` accepts a status change exactly when it does
not move backward in the linear order `Requested → Approved → In Progress →
Completed`; a backward change is rejected with `InvalidTransition` (so the
stored request is left unchanged), and every accepted update carries the
requested status. -/
theorem updateServiceRequest_monotone (req : ServiceRequest) (s : Status)
    (sel : Option String) (fc : Option ℚ) (ftm : Option ℕ) :
    (s.idx < req.status.idx →
      updateServiceRequest req s sel fc ftm = .error .InvalidTransition) ∧
    (∀ req', updateServiceRequest req s sel fc ftm = .ok req' →
      req.status.idx ≤ s.idx ∧ req'.status = s) := by
  constructor
  · intro hlt
    unfold updateServiceRequest
    rw [if_neg (not_le.mpr hlt)]
  · intro req' hok
    unfold updateServiceRequest at hok
    by_cases hle : req.status.idx ≤ s.idx
    · rw [if_pos hle] at hok
      exact ⟨hle, by cases hok; rfl⟩
    · rw [if_neg hle] at hok
      exact absurd hok (by simp)

/-- Witness for C4: the transition `Completed → Requested` is rejected with
`InvalidTransition`. -/
theorem updateServiceRequest_monotone_witness :
    updateServiceRequest
      ⟨"SR001", "CUST001", "VEH001", "DEAL001", ["SP001"], none,
        .Completed, none, none⟩
      .Requested none none none = .error .InvalidTransition :=
  (updateServiceRequest_monotone _ .Requested none none none).1 (by decide)

/-! ## Booking Coordinator (modelled from the spec, §4.6) -/

/-- Arguments of one `CreateBooking` call (spec §6); the frontend
`handleBooking` supplies customer, vehicle, dealership and the candidate
problem ids, with the conversation id as the session/idempotency key. -/
structure BookingArgs where
  customer_id : String
  vehicle_id : String
  dealership_id : String
  top_problems : List String
deriving DecidableEq, Repr

/-- The `ServiceRequest` freshly created by a booking: state `Requested`,
all candidate problems, no selected problem yet (spec §4.6). -/
def mkServiceRequest (id : String) (a : BookingArgs) : ServiceRequest :=
  { request_id := id
    customer_id := a.customer_id
    vehicle_id := a.vehicle_id
    dealership_id := a.dealership_id
    top_problems := a.top_problems
    selected_problem := none
    status := .Requested
    final_cost := none
    final_time_minutes := none }

/-- Modelled from the spec: the Booking Coordinator's `CreateBooking` (§4.6,
§7), whose backend source is not in the repository.  The store keys
requests by the client-supplied idempotency key; a reused key returns the
original booking's request id (`DuplicateBooking` behaviour) and creates
nothing, otherwise a single fresh request is prepended. -/
def createBooking (store : List (String × ServiceRequest)) (key : String)
    (args : BookingArgs) (freshId : String) :
    String × List (String × ServiceRequest) :=
  match store.find? (fun e => e.1 == key) with
  | some e => (e.2.request_id, store)
  | none => (freshId, (key, mkServiceRequest freshId args) :: store)

/-- C5: `CreateBooking` is idempotent — calling it twice with the same
idempotency key and the same arguments creates exactly one `ServiceRequest`
(the store grows by one entry on the first call and is unchanged by the
second), and the second call returns the same request id as the first. -/
theorem createBooking_idempotent (store : List (String × ServiceRequest))
    (key : String) (args : BookingArgs) (id₁ id₂ : String)
    (hfresh : store.find? (fun e => e.1 == key) = none) :
    (createBooking (createBooking store key args id₁).2 key args id₂).2 =
      (createBooking store key args id₁).2 ∧
    (createBooking (createBooking store key args id₁).2 key args id₂).1 =
      (createBooking store key args id₁).1 ∧
    (createBooking store key args id₁).2.length = store.length + 1 ∧
    (createBooking store key args id₁).1 = id₁ := by
  have h₁ : createBooking store key args id₁ =
      (id₁, (key, mkServiceRequest id₁ args) :: store) := by
    unfold createBooking
    rw [hfresh]
  have h₂ : ((key, mkServiceRequest id₁ args) :: store).find?
      (fun e => e.1 == key) = some (key, mkServiceRequest id₁ args) := by
    simp [List.find?]
  refine ⟨?_, ?_, ?_, ?_⟩
  · rw [h₁]
    show (createBooking ((key, mkServiceRequest id₁ args) :: store)
      key args id₂).2 = _
    unfold createBooking
    rw [h₂]
  · rw [h₁]
    show (createBooking ((key, mkServiceRequest id₁ args) :: store)
      key args id₂).1 = id₁
    unfold createBooking
    rw [h₂]
    rfl
  · rw [h₁]; rfl
  · rw [h₁]

/-- Witness for C5 on an empty store with key `CONV001`. -/
theorem createBooking_idempotent_witness :
    (createBooking
        (createBooking [] "CONV001"
          ⟨"CUST001", "VEH001", "DEAL001", ["SP001"]⟩ "SR001").2
        "CONV001" ⟨"CUST001", "VEH001", "DEAL001", ["SP001"]⟩ "SR002").1 =
      (createBooking [] "CONV001"
        ⟨"CUST001", "VEH001", "DEAL001", ["SP001"]⟩ "SR001").1 :=
  (createBooking_idempotent [] "CONV001"
    ⟨"CUST001", "VEH001", "DEAL001", ["SP001"]⟩ "SR001" "SR002" rfl).2.1

/-! ## DealerServiceDetail screen (embedded from the frontend source) -/

/-- Value of a numeric form field on the dealer update screen.  `empty`
stands for the JavaScript empty string `''`, which is falsy; a loaded or
typed number is kept as such (the number `0` is also falsy in JavaScript). -/
inductive JsField where
  | empty
  | num (q : ℚ)
deriving DecidableEq, Repr

/-- JavaScript truthiness of a field value: `''` and `0` are falsy. -/
def JsField.truthy : JsField → Bool
  | .empty => false
  | .num q => !(q == 0)

/-- Numeric value read back from a field (`parseFloat`/`parseInt` of the
input; 0 for the empty field). -/
def JsField.toNumber : JsField → ℚ
  | .empty => 0
  | .num q => q

/-- The slice of the fetched service record that `DealerServiceDetail`
reads: id, AI top problems, previously selected problem, status and final
cost/time (all nullable server-side). -/
structure DealerServiceView where
  service_request_id : String
  top_problems : List String
  selected_problem : Option String
  status : Option Status
  final_cost : Option ℚ
  final_time_minutes : Option ℚ
deriving DecidableEq, Repr

/-- The component state of `DealerServiceDetail` that `handleUpdate` reads:
the fetched service plus the `status`, `cost`, `time` and
`selectedProblemId` fields. -/
structure DealerDetailState where
  service : DealerServiceView
  status : Status
  cost : JsField
  time : JsField
  selectedProblemId : String
deriving DecidableEq, Repr

/-- Initialisation `setCost(found.final_cost || '')` from `fetchServiceDetail`: a missing
or zero final cost yields the empty field (`0` is falsy in JavaScript). -/
def loadCostField : Option ℚ → JsField
  | none => .empty
  | some q => if q == 0 then .empty else .num q

/-- State initialisation of `fetchServiceDetail`:
`setStatus(found.status || 'Requested')`, `setCost(found.final_cost || '')`,
`setTime(found.final_time_minutes || '')`,
`setSelectedProblemId(found.selected_problem?.problem_id || '')`. -/
def fetchServiceDetail (svc : DealerServiceView) : DealerDetailState :=
  { service := svc
    status := svc.status.getD .Requested
    cost := loadCostField svc.final_cost
    time := loadCostField svc.final_time_minutes
    selectedProblemId := svc.selected_problem.getD "" }

/-- The PUT body assembled by `handleUpdate`. -/
structure UpdatePayload where
  service_request_id : String
  status : Status
  selected_problem_id : String
  final_cost : ℚ
  final_time_minutes : ℚ
deriving DecidableEq, Repr

/-- Outcome of one `handleUpdate` click: one of the two validation alerts
(no request is sent), or the PUT request with its payload. -/
inductive UpdateAction where
  | alertSelectIssue
  | alertProvideEstimates
  | put (payload : UpdatePayload)
deriving DecidableEq, Repr

/-- Handler `handleUpdate` from `DealerServiceDetail`: alert and stop when no issue
is selected (`!selectedProblemId && !service.selected_problem`), alert and
stop when cost or time is falsy (`!cost || !time`), otherwise PUT
`{status, selected_problem_id: selectedProblemId ||
service.selected_problem?.problem_id, final_cost: parseFloat(cost),
final_time_minutes: parseInt(time)}`. -/
def handleUpdate (st : DealerDetailState) : UpdateAction :=
  if st.selectedProblemId = "" ∧ st.service.selected_problem = none then
    .alertSelectIssue
  else if st.cost.truthy = false ∨ st.time.truthy = false then
    .alertProvideEstimates
  else
    .put
      { service_request_id := st.service.service_request_id
        status := st.status
        selected_problem_id :=
          if st.selectedProblemId ≠ "" then st.selectedProblemId
          else st.service.selected_problem.getD ""
        final_cost := st.cost.toNumber
        final_time_minutes := st.time.toNumber }

/-! ## Auto-fill path of `handleSelectProblem` (embedded from the frontend
source in `tables.md`) -/

/-- Parts component `partsData.parts.reduce((sum, part) => sum + (part.cost || 0), 0)` from
`handleSelectProblem`. -/
def autoFillPartsCost (parts : List Part) : ℚ :=
  parts.foldl (fun sum part => sum + part.cost) 0

/-- Labour component of `handleSelectProblem`:
`labourData.labour?.find(l => l.labour_category === fullProblem.labour_category)`
(the first matching record, availability ignored), then
`matchingLabour ? labourHours * matchingLabour.hourly_rate : 0`. -/
def autoFillLabourCost (labour : List LabourRecord) (pb : ServiceProblem) : ℚ :=
  match labour.find? (fun l => l.labour_category == pb.labour_category) with
  | some l => pb.estimated_labour_hours * l.hourly_rate
  | none => 0

/-- Total `totalCost = partsCost + labourCost` from `handleSelectProblem`; no
discount rule is consulted on this path. -/
def autoFillTotalCost (parts : List Part) (labour : List LabourRecord)
    (pb : ServiceProblem) : ℚ :=
  autoFillPartsCost parts + autoFillLabourCost labour pb

/-! ## Booking payload of `handleBooking` (embedded from
`EstimatesComparison.js`) -/

/-- One per-problem estimate group as rendered by `EstimatesComparison`. -/
structure EstimateGroup where
  problem_id : String
  problem_name : String
deriving DecidableEq, Repr

/-- The POST body of `handleBooking`: customer, vehicle, dealership,
conversation id, and `top_problems: estimates.map(e => ({problem_id,
problem_name}))`. -/
structure FrontBookingPayload where
  customer_id : String
  vehicle_id : String
  dealership_id : String
  conversation_id : String
  top_problems : List (String × String)
deriving DecidableEq, Repr

/-- Handler `handleBooking` from `EstimatesComparison.js`: one candidate problem per
estimate group is sent with the booking. -/
def handleBooking (customerId vehicleId dealershipId conversationId : String)
    (estimates : List EstimateGroup) : FrontBookingPayload :=
  { customer_id := customerId
    vehicle_id := vehicleId
    dealership_id := dealershipId
    conversation_id := conversationId
    top_problems := estimates.map fun e => (e.problem_id, e.problem_name) }

/-- Folding `+ cost` over a parts list adds the list's total cost. -/
theorem foldl_add_cost (ps : List Part) (a : ℚ) :
    ps.foldl (fun sum part => sum + part.cost) a = a + (ps.map Part.cost).sum := by
  induction ps generalizing a with
  | nil => simp
  | cons p t ih => simp [ih, add_assoc]

/-- Concrete dealer-screen state: the AI candidate set is `["SP001"]` but
the dealer has searched the full catalog and selected `"SP042"`, with cost
and time filled in. -/
def searchedOutsideState : DealerDetailState :=
  { service :=
      { service_request_id := "SR010"
        top_problems := ["SP001"]
        selected_problem := none
        status := some .Requested
        final_cost := none
        final_time_minutes := none }
    status := .Approved
    cost := .num 950
    time := .num 60
    selectedProblemId := "SP042" }

/-- C6 counterexample: `handleUpdate` submits the dealer's selected problem
`"SP042"` even though it is not a member of the request's candidate set
`["SP001"]` — membership of `selected_problem` in the candidate set is not
enforced by the dealership-side update operation. -/
theorem selected_problem_escapes_candidates :
    handleUpdate searchedOutsideState =
      .put
        { service_request_id := "SR010"
          status := .Approved
          selected_problem_id := "SP042"
          final_cost := 950
          final_time_minutes := 60 } ∧
    "SP042" ∉ searchedOutsideState.service.top_problems := by
  constructor
  · rfl
  · simp [searchedOutsideState]

/-- C6 as amended: the booking references one candidate problem per estimate
group (hence at least one whenever a booking is possible), and the
dealership-side update operation forwards whatever problem the dealer
selected — any searched catalog problem, with no membership restriction to
the candidate set. -/
theorem booking_candidates_and_free_selection :
    (∀ st : DealerDetailState, st.selectedProblemId ≠ "" →
      st.cost.truthy = true → st.time.truthy = true →
      handleUpdate st =
        .put
          { service_request_id := st.service.service_request_id
            status := st.status
            selected_problem_id := st.selectedProblemId
            final_cost := st.cost.toNumber
            final_time_minutes := st.time.toNumber }) ∧
    (∀ (cId vId dId convId : String) (ests : List EstimateGroup),
      ests ≠ [] →
      (handleBooking cId vId dId convId ests).top_problems.length =
          ests.length ∧
      (handleBooking cId vId dId convId ests).top_problems ≠ []) := by
  constructor
  · intro st hsel hc ht
    unfold handleUpdate
    rw [if_neg (by intro hand; exact hsel hand.1),
      if_neg (by rw [hc, ht]; simp), if_pos hsel]
  · intro cId vId dId convId ests hne
    refine ⟨by simp [handleBooking], ?_⟩
    simp only [handleBooking, ne_eq, List.map_eq_nil_iff]
    exact hne

/-- Witness for the amended C6: the concrete screen state submits `"SP042"`,
and a one-group estimate list yields a one-problem booking. -/
theorem booking_candidates_and_free_selection_witness :
    handleUpdate searchedOutsideState =
      .put
        { service_request_id := "SR010"
          status := .Approved
          selected_problem_id := "SP042"
          final_cost := 950
          final_time_minutes := 60 } ∧
    (handleBooking "CUST001" "VEH001" "DEAL001" "CONV001"
        [⟨"SP001", "Brake Pad Wear"⟩]).top_problems ≠ [] :=
  ⟨booking_candidates_and_free_selection.1 searchedOutsideState
      (by simp [searchedOutsideState]) rfl rfl,
    (booking_candidates_and_free_selection.2 "CUST001" "VEH001" "DEAL001"
      "CONV001" [⟨"SP001", "Brake Pad Wear"⟩] (by simp)).2⟩

/-- C9: the cost pre-filled by the dealer-side auto-fill path equals the sum
of the fetched parts' costs plus `estimated_labour_hours` times the hourly
rate of the first labour record matching the problem's category (0 when none
matches); no discount is ever subtracted on this path, so the pre-filled
cost is at least the parts cost. -/
theorem autoFill_no_discount (ps : List Part) (ls : List LabourRecord)
    (pb : ServiceProblem) (hls : ∀ l ∈ ls, 0 ≤ l.hourly_rate)
    (hh : 0 ≤ pb.estimated_labour_hours) :
    autoFillTotalCost ps ls pb =
      (ps.map Part.cost).sum +
        (match ls.find? (fun l => l.labour_category == pb.labour_category) with
          | some l => pb.estimated_labour_hours * l.hourly_rate
          | none => 0) ∧
    autoFillPartsCost ps ≤ autoFillTotalCost ps ls pb := by
  have hlab : 0 ≤ autoFillLabourCost ls pb := by
    unfold autoFillLabourCost
    cases h : ls.find? (fun l => l.labour_category == pb.labour_category) with
    | none => exact le_refl 0
    | some l => exact mul_nonneg hh (hls l (List.mem_of_find?_eq_some h))
  constructor
  · unfold autoFillTotalCost autoFillLabourCost autoFillPartsCost
    rw [foldl_add_cost, zero_add]
  · unfold autoFillTotalCost
    linarith

/-- Witness for C9 at the concrete `tables.md` records. -/
theorem autoFill_no_discount_witness :
    autoFillTotalCost [PART_028] [T104] SP001 =
      ([PART_028].map Part.cost).sum +
        (match [T104].find?
            (fun l => l.labour_category == SP001.labour_category) with
          | some l => SP001.estimated_labour_hours * l.hourly_rate
          | none => 0) :=
  (autoFill_no_discount [PART_028] [T104] SP001
    (by intro l hl; simp only [List.mem_singleton] at hl; subst hl
        norm_num [T104])
    (by norm_num [SP001])).1

/-- C10: loading a service whose `final_cost` is 0 leaves the cost field
empty (`final_cost || ''`), and `handleUpdate` sends no PUT request while
the cost or time field is empty — so a request with a zero final cost
cannot be re-submitted unchanged through this screen. -/
theorem zero_final_cost_blocks_resubmission (svc : DealerServiceView)
    (h0 : svc.final_cost = some 0) :
    (fetchServiceDetail svc).cost = .empty ∧
    (∀ st : DealerDetailState, st.cost = .empty ∨ st.time = .empty →
      ∀ p, handleUpdate st ≠ .put p) ∧
    (∀ p, handleUpdate (fetchServiceDetail svc) ≠ .put p) := by
  have hcost : (fetchServiceDetail svc).cost = .empty := by
    simp [fetchServiceDetail, loadCostField, h0]
  have hblock : ∀ st : DealerDetailState,
      st.cost = .empty ∨ st.time = .empty → ∀ p, handleUpdate st ≠ .put p := by
    intro st hempty p
    unfold handleUpdate
    by_cases h₁ : st.selectedProblemId = "" ∧ st.service.selected_problem = none
    · rw [if_pos h₁]; simp
    · rw [if_neg h₁, if_pos ?_]
      · simp
      · rcases hempty with h | h <;> rw [h] <;> simp [JsField.truthy]
  exact ⟨hcost, hblock, fun p => hblock _ (Or.inl hcost) p⟩

/-- Witness for C10 at a concrete service record with `final_cost = 0`. -/
theorem zero_final_cost_blocks_resubmission_witness :
    (fetchServiceDetail
      ⟨"SR011", ["SP001"], some "SP001", some .Approved, some 0,
        some 60⟩).cost = .empty :=
  (zero_final_cost_blocks_resubmission
    ⟨"SR011", ["SP001"], some "SP001", some .Approved, some 0, some 60⟩
    rfl).1

/-! ## Clarification loop (modelled from the spec, §4.2; the frontend
`DiagnosisChat.sendMessage` only relays the stage returned by the backend) -/

/-- Modelled from the spec: the finalized shortlist is the top-N (N = 3) of
the ranked candidates for the current transcript. -/
def topN (rank : List String → List String) (t : List String) : List String :=
  (rank t).take 3

/-- Modelled from the spec: the clarification loop (§4.2), whose backend
source is not in the repository.  `fuel` is the remaining question budget;
each turn appends the customer's answer to the transcript, rescores, and
stops when the top-N is stable across two consecutive turns or the budget
is exhausted, whichever comes first.  Returns the number of questions asked
and the finalized top-N handed to estimation. -/
def clarifyAux (rank : List String → List String) (answers : ℕ → String) :
    ℕ → List String → List String → ℕ → ℕ × List String
  | 0, t, _, asked => (asked, topN rank t)
  | fuel + 1, t, prev, asked =>
      let t' := t ++ [answers asked]
      let newTop := topN rank t'
      if newTop = prev then (asked + 1, newTop)
      else clarifyAux rank answers fuel t' newTop (asked + 1)

/-- Modelled from the spec: one whole clarification phase with question
budget `K`, starting from the intake transcript `t0` and its initial
ranking. -/
def clarify (rank : List String → List String) (answers : ℕ → String)
    (K : ℕ) (t0 : List String) : ℕ × List String :=
  clarifyAux rank answers K t0 (topN rank t0) 0

/-- Invariant of the clarification loop: at most `fuel` further questions
are asked, and the finalized list is the top-3 of some rescoring. -/
theorem clarifyAux_spec (rank : List String → List String)
    (answers : ℕ → String) :
    ∀ (fuel : ℕ) (t prev : List String) (asked : ℕ),
      (clarifyAux rank answers fuel t prev asked).1 ≤ asked + fuel ∧
      ∃ s, (clarifyAux rank answers fuel t prev asked).2 = (rank s).take 3 := by
  intro fuel
  induction fuel with
  | zero => intro t prev asked; exact ⟨le_refl _, t, rfl⟩
  | succ n ih =>
      intro t prev asked
      unfold clarifyAux
      by_cases h : topN rank (t ++ [answers asked]) = prev
      · rw [if_pos h]
        exact ⟨by omega, t ++ [answers asked], rfl⟩
      · rw [if_neg h]
        obtain ⟨h₁, h₂⟩ := ih (t ++ [answers asked])
          (topN rank (t ++ [answers asked])) (asked + 1)
        exact ⟨by omega, h₂⟩

/-- C7: the clarification loop always terminates — it asks at most `K`
questions, stopping at top-N stability or budget exhaustion, whichever comes
first — and the finalized shortlist handed to estimation is the top-3 of a
rescoring: exactly 3 ranked problems whenever every rescoring has at least
3 candidates, and never more than 3. -/
theorem clarify_loop_terminates (rank : List String → List String)
    (answers : ℕ → String) (K : ℕ) (t0 : List String) :
    (clarify rank answers K t0).1 ≤ K ∧
    (∃ s, (clarify rank answers K t0).2 = (rank s).take 3) ∧
    (clarify rank answers K t0).2.length ≤ 3 ∧
    ((∀ s, 3 ≤ (rank s).length) → (clarify rank answers K t0).2.length = 3) := by
  obtain ⟨h₁, s, h₂⟩ := clarifyAux_spec rank answers K t0 (topN rank t0) 0
  refine ⟨by simpa [clarify] using h₁, ⟨s, h₂⟩, ?_, ?_⟩
  · have he : (clarify rank answers K t0).2 = List.take 3 (rank s) := h₂
    rw [he]
    simp
  · intro hall
    have he : (clarify rank answers K t0).2 = List.take 3 (rank s) := h₂
    rw [he, List.length_take]
    have := hall s
    omega


/-- Witness for C7: with a constant three-candidate ranking the loop
converges after one question and finalizes exactly 3 problems. -/
theorem clarify_loop_terminates_witness :
    (clarify (fun _ => ["SP001", "SP002", "SP003"]) (fun _ => "yes") 5
        ["brake noise"]).2.length = 3 :=
  (clarify_loop_terminates (fun _ => ["SP001", "SP002", "SP003"])
    (fun _ => "yes") 5 ["brake noise"]).2.2.2 (fun _ => by simp)

/-! ## Estimate Aggregator ordering (modelled from the spec, §4.5; the
frontend `EstimatesComparison` renders the groups in the order received) -/

/-- One dealership row of a per-problem comparison group. -/
structure DealerEstimateRow where
  dealership_id : String
  final_cost : ℚ
  estimated_minutes : ℕ
deriving DecidableEq, Repr

/-- Lexicographic sort key of a dealership row: ascending `final_cost`,
then ascending `estimated_minutes`, then ascending `dealership_id`. -/
def dealerKey (r : DealerEstimateRow) : Lex (ℚ × Lex (ℕ × String)) :=
  toLex (r.final_cost, toLex (r.estimated_minutes, r.dealership_id))

/-- Modelled from the spec: the Aggregator's ordering of dealerships within
one problem group (§4.5). -/
def dealerOrder (a b : DealerEstimateRow) : Prop :=
  dealerKey a ≤ dealerKey b

instance : DecidableRel dealerOrder := fun a b =>
  inferInstanceAs (Decidable (dealerKey a ≤ dealerKey b))

instance : IsTotal DealerEstimateRow dealerOrder :=
  ⟨fun a b => le_total (dealerKey a) (dealerKey b)⟩

instance : IsTrans DealerEstimateRow dealerOrder :=
  ⟨fun _ _ _ h₁ h₂ => le_trans h₁ h₂⟩

/-- The aggregator's ordering, spelled out: lower `final_cost` first, ties
by lower `estimated_minutes`, then by `dealership_id`. -/
theorem dealerOrder_iff (a b : DealerEstimateRow) :
    dealerOrder a b ↔
      a.final_cost < b.final_cost ∨
        (a.final_cost = b.final_cost ∧
          (a.estimated_minutes < b.estimated_minutes ∨
            (a.estimated_minutes = b.estimated_minutes ∧
              a.dealership_id ≤ b.dealership_id))) := by
  unfold dealerOrder dealerKey
  rw [Prod.Lex.le_iff, Prod.Lex.le_iff]

/-- Modelled from the spec: within each problem group the Aggregator sorts
the dealership rows ascending by the deterministic key. -/
def sortDealerRows (l : List DealerEstimateRow) : List DealerEstimateRow :=
  l.insertionSort dealerOrder

/-- Modelled from the spec: the Estimate Aggregator (§4.5), whose backend
source is not in the repository.  The collected (problem, row) results are
grouped by problem and each group's dealership list is sorted. -/
def aggregateEstimates (problems : List String)
    (results : List (String × DealerEstimateRow)) :
    List (String × List DealerEstimateRow) :=
  problems.map fun pb =>
    (pb, sortDealerRows ((results.filter fun r => r.1 == pb).map Prod.snd))

/-- C8: in every group produced by the Aggregator, the dealership list is a
permutation of that problem's collected results and is sorted ascending by
`final_cost`, ties broken by ascending `estimated_minutes` and then by
ascending `dealership_id`. -/
theorem aggregate_groups_sorted (problems : List String)
    (results : List (String × DealerEstimateRow)) :
    ∀ e ∈ aggregateEstimates problems results,
      e.2.Perm ((results.filter fun r => r.1 == e.1).map Prod.snd) ∧
      e.2.Pairwise fun a b =>
        a.final_cost < b.final_cost ∨
          (a.final_cost = b.final_cost ∧
            (a.estimated_minutes < b.estimated_minutes ∨
              (a.estimated_minutes = b.estimated_minutes ∧
                a.dealership_id ≤ b.dealership_id))) := by
  intro e he
  simp only [aggregateEstimates, List.mem_map] at he
  obtain ⟨pb, _, rfl⟩ := he
  constructor
  · exact List.perm_insertionSort dealerOrder _
  · have hs := List.sorted_insertionSort dealerOrder
      ((results.filter fun r => r.1 == pb).map Prod.snd)
    exact List.Pairwise.imp (fun h => (dealerOrder_iff _ _).mp h) hs

/-- Witness for C8 on a concrete two-dealer result set: the cheaper
dealership is listed first. -/
theorem aggregate_groups_sorted_witness :
    (("SP001", sortDealerRows [⟨"DEAL002", 700, 50⟩, ⟨"DEAL001", 600, 48⟩]) ∈
        aggregateEstimates ["SP001"]
          [("SP001", ⟨"DEAL002", 700, 50⟩), ("SP001", ⟨"DEAL001", 600, 48⟩)] →
      (sortDealerRows
          [⟨"DEAL002", 700, 50⟩, ⟨"DEAL001", 600, 48⟩]).Pairwise
        fun a b =>
          a.final_cost < b.final_cost ∨
            (a.final_cost = b.final_cost ∧
              (a.estimated_minutes < b.estimated_minutes ∨
                (a.estimated_minutes = b.estimated_minutes ∧
                  a.dealership_id ≤ b.dealership_id)))) ∧
    ("SP001", sortDealerRows [⟨"DEAL002", 700, 50⟩, ⟨"DEAL001", 600, 48⟩]) ∈
      aggregateEstimates ["SP001"]
        [("SP001", ⟨"DEAL002", 700, 50⟩), ("SP001", ⟨"DEAL001", 600, 48⟩)] :=
  ⟨fun hmem =>
      (aggregate_groups_sorted ["SP001"]
        [("SP001", ⟨"DEAL002", 700, 50⟩), ("SP001", ⟨"DEAL001", 600, 48⟩)]
        _ hmem).2,
    by simp [aggregateEstimates]⟩

end AutoCare
